import Mathlib

/-!
Verification development for the routermonitor client-state reconciliation
engine (src/routermonitor/routermonitor.py).

Shallow embedding notes:
- Python numbers (ints from the dd-wrt lease file and floats produced by
  datetime.strptime(...).timestamp() and time.time()) are modelled as exact
  rationals.  Every numeric value in the program is either an integer or an
  IEEE double produced once and then only stored, re-read and compared for
  equality; SQLite stores ints and doubles exactly, and its NUMERIC/INTEGER
  column affinity conversions (the expiry and first_seen columns are declared
  INT, inserts pass the number unquoted, updates pass str(value) quoted)
  preserve the numeric value, so the store round trip is the identity on the
  modelled rational and Python == / != is rational equality.
- Python str values read from VARCHAR columns are String.  A snapshot field
  coming from the pfSense HTML scrape can be Python None (a cell with no
  text), modelled as Option String with none for None.  Writing a value into
  the database goes through an f-string, which renders None as the four
  character text None; pyStr models that coercion.
- The sqlite table is a plain list of rows in insertion order: the CREATE
  TABLE statement declares no PRIMARY KEY or UNIQUE constraint, so INSERT is
  append and UPDATE ... WHERE MAC = m rewrites every row whose MAC column is
  m.  Reading the table into the keyed dict of get_database_clients assigns
  rows in order, so for a duplicated MAC the last row wins.
-/

set_option maxRecDepth 4000

namespace RouterMonitor

/-- Coercion applied when a Python value (possibly None) is written into a
VARCHAR column through an f-string: None becomes the text None. -/
def pyStr : Option String → String
| none => "None"
| some s => s

/-- Python inequality between a snapshot field (str or None) and a stored
str, as in dhcp_clients[MAC][f] != database_clients[MAC][f]: None != s is
always True, str != str is string inequality. -/
def pyNeStr : Option String → String → Bool
| none, _ => true
| some s, b => decide (s ≠ b)

/-- Canonical client record produced by get_dhcp_clients: hostname and IP may
be Python None for a pfSense table cell with no text; expiry is the numeric
lease-expiry timestamp (0 for a pfSense end value of n/a). -/
structure SnapClient where
  hostname : Option String
  IP : Option String
  expiry : ℚ
deriving DecidableEq

/-- One row of the network-clients table, columns in declaration order:
MAC VARCHAR, hostname VARCHAR, notes VARCHAR, first_seen INT, expiry INT,
IP VARCHAR, MACOUI VARCHAR. -/
structure DbRow where
  MAC : String
  hostname : String
  notes : String
  first_seen : ℚ
  expiry : ℚ
  IP : String
  MACOUI : String
deriving DecidableEq

/-- Value of the per-MAC dict built by get_database_clients. -/
structure DbClient where
  hostname : String
  IP : String
  expiry : ℚ
  first_seen : ℚ
  notes : String
  MACOUI : String
deriving DecidableEq

/-- Projection of a table row to the dict entry get_database_clients builds
for it. -/
def toClient (r : DbRow) : DbClient :=
  ⟨r.hostname, r.IP, r.expiry, r.first_seen, r.notes, r.MACOUI⟩

/-- Association-list lookup, Python dict read d[k]. -/
def alookup : List (String × α) → String → Option α
| [], _ => none
| (k, v) :: t, m => if k = m then some v else alookup t m

/-- Python dict assignment d[k] = v: replace the value in place when the key
exists, append otherwise. -/
def upsert : List (String × α) → String → α → List (String × α)
| [], k, v => [(k, v)]
| (k1, v1) :: t, k, v => if k1 = k then (k1, v) :: t else (k1, v1) :: upsert t k v

/-- Build a Python dict by assigning the pairs in order (later pairs with the
same key overwrite earlier ones). -/
def build_alist (ps : List (String × α)) : List (String × α) :=
  ps.foldl (fun acc p => upsert acc p.1 p.2) []

/-- get_database_clients: read every table row in order into a dict keyed by
the MAC column (for a duplicated MAC the last row wins). -/
def get_database_clients (rows : List DbRow) : List (String × DbClient) :=
  build_alist (rows.map (fun r => (r.MAC, toClient r)))

/-- The table row visible through get_database_clients for a given MAC: the
last row whose MAC column equals m. -/
def vis (rows : List DbRow) (m : String) : Option DbRow :=
  rows.reverse.find? (fun r => decide (r.MAC = m))

/-- UPDATE table SET (one field) WHERE MAC = m: rewrites every row whose MAC
column equals m. -/
def update_field (rows : List DbRow) (m : String) (f : DbRow → DbRow) : List DbRow :=
  rows.map (fun r => if r.MAC = m then f r else r)

/-- Change events surfaced by do_update: a snd_notif call for a new client
(carrying the looked-up MACOUI), or a logged per-field update. -/
inductive Event where
| NewClient (mac macoui : String)
| FieldChanged (mac field : String)
deriving DecidableEq

/-- MAC address an event is about. -/
def eventMAC : Event → String
| .NewClient m _ => m
| .FieldChanged m _ => m

/-- Row inserted by db_add_client for MAC m: notes is the literal dash
placeholder, first_seen is time.time() at insertion, hostname and IP go
through the f-string coercion, MACOUI is the lookup_MAC result. -/
def newRow (lookup : String → String) (now : ℚ) (m : String) (sc : SnapClient) : DbRow :=
  ⟨m, pyStr sc.hostname, "-", now, sc.expiry, pyStr sc.IP, lookup m⟩

/-- db_add_client: look up the MACOUI, INSERT one row (plain append, the
schema has no uniqueness constraint), return the MACOUI. -/
def db_add_client (lookup : String → String) (now : ℚ) (rows : List DbRow)
    (m : String) (sc : SnapClient) : List DbRow × String :=
  (rows ++ [newRow lookup now m sc], lookup m)

/-- SET hostname clause of the hostname UPDATE statement. -/
def set_hostname (v : String) (r : DbRow) : DbRow := { r with hostname := v }

/-- SET IP clause of the IP UPDATE statement. -/
def set_IP (v : String) (r : DbRow) : DbRow := { r with IP := v }

/-- SET expiry clause of the expiry UPDATE statement. -/
def set_expiry (v : ℚ) (r : DbRow) : DbRow := { r with expiry := v }

/-- Conditionally executed UPDATE: the statement runs only when the field
comparison came out unequal. -/
def cond_update (rows : List DbRow) (m : String) (b : Bool) (f : DbRow → DbRow) :
    List DbRow :=
  if b then update_field rows m f else rows

/-- Effect of a conditionally executed UPDATE on a single row. -/
def cond_apply (b : Bool) (f : DbRow → DbRow) (r : DbRow) : DbRow :=
  if b then f r else r

/-- Body of the per-MAC iteration of do_update: insert plus notification when
the MAC is absent from the dict read at the start of the call, otherwise one
independent comparison and conditional UPDATE for each of hostname, IP,
expiry, in that order, each emitting its own logged change event. -/
def process_mac (lookup : String → String) (now : ℚ)
    (dbmap : List (String × DbClient)) (rows : List DbRow)
    (m : String) (sc : SnapClient) : List DbRow × List Event :=
  match alookup dbmap m with
  | none =>
      let (rows2, macoui) := db_add_client lookup now rows m sc
      (rows2, [Event.NewClient m macoui])
  | some dbc =>
      let b1 := pyNeStr sc.hostname dbc.hostname
      let b2 := pyNeStr sc.IP dbc.IP
      let b3 := decide (sc.expiry ≠ dbc.expiry)
      let rows1 := cond_update rows m b1 (set_hostname (pyStr sc.hostname))
      let rows2 := cond_update rows1 m b2 (set_IP (pyStr sc.IP))
      let rows3 := cond_update rows2 m b3 (set_expiry sc.expiry)
      (rows3,
       (if b1 then [Event.FieldChanged m "hostname"] else []) ++
       (if b2 then [Event.FieldChanged m "IP"] else []) ++
       (if b3 then [Event.FieldChanged m "expiry"] else []))

/-- The for MAC in dhcp_clients loop of do_update: dbmap is the dict read
once before the loop and never refreshed inside it. -/
def run_macs (lookup : String → String) (now : ℚ) (dbmap : List (String × DbClient)) :
    List (String × SnapClient) → List DbRow → List DbRow × List Event
| [], rows => (rows, [])
| (m, sc) :: rest, rows =>
    let step := process_mac lookup now dbmap rows m sc
    let tail := run_macs lookup now dbmap rest step.1
    (tail.1, step.2 ++ tail.2)

/-- do_update applied to an already-fetched snapshot: read the database dict
once, then run the per-MAC loop. -/
def do_update_snapshot (lookup : String → String) (now : ℚ)
    (snap : List (String × SnapClient)) (rows : List DbRow) :
    List DbRow × List Event :=
  run_macs lookup now (get_database_clients rows) snap rows

/-- Net effect of the three conditional field updates of do_update on the row
visible for a MAC present in both the snapshot and the database: each of
hostname, IP and expiry is replaced exactly when the Python comparison of the
snapshot value against the stored value says they differ, and no other column
is touched. -/
def applyUpd (sc : SnapClient) (r : DbRow) : DbRow :=
  { r with
    hostname := if pyNeStr sc.hostname r.hostname then pyStr sc.hostname else r.hostname,
    IP := if pyNeStr sc.IP r.IP then pyStr sc.IP else r.IP,
    expiry := if sc.expiry ≠ r.expiry then sc.expiry else r.expiry }

/-- Row visible for a snapshot MAC after its do_update iteration: a fresh
insert when the MAC was absent from the database dict, the field-scoped
update otherwise. -/
def stepRow (lookup : String → String) (now : ℚ) (m : String) (sc : SnapClient) :
    Option DbRow → DbRow
| none => newRow lookup now m sc
| some r0 => applyUpd sc r0

/-- One pfSense lease-table row as returned by scrape_pfsense_dhcp: each cell
is the text of the td element, which is Python None when the cell has no
text. The MAC address cell is taken as present. -/
structure PfRow where
  End : Option String
  MACaddress : String
  Hostname : Option String
  IPaddress : Option String
deriving DecidableEq

/-- Outcome of the pfSense web scrape as seen by get_dhcp_clients. -/
inductive PfScrapeResult where
| connectFail
| csrfFail
| rows (rs : List PfRow)
deriving DecidableEq

/-- Outcome of the dd-wrt remote lease-file read. -/
inductive DdwrtResult where
| sshFail
| output (lines : List String)
deriving DecidableEq

/-- Configured DHCP source backend together with what the external world
returns for this fetch. -/
inductive SourceKind where
| pfsense (r : PfScrapeResult)
| ddwrt (r : DdwrtResult)
deriving DecidableEq

/-- Outcome of a Python call: a value, a raised Exception (catchable by
except Exception), or SystemExit from sys.exit (not an Exception, so it
escapes the except Exception handler in do_update). -/
inductive PyResult (α : Type) where
| ok (a : α)
| exc (msg : String)
| sysExit (code : Nat)
deriving DecidableEq

/-- Normalization of one pfSense row inside get_dhcp_clients: an End cell of
n/a maps to expiry 0, any other text goes through strptime(...).timestamp()
(passed in as a parameter), and a None End cell makes strptime raise a
TypeError. -/
def normalize_row (strptime : String → ℚ) (r : PfRow) :
    Except String (String × SnapClient) :=
  match r.End with
  | none => .error "TypeError: strptime argument must be str, not None"
  | some e =>
      let expiry : ℚ := if e = "n/a" then 0 else strptime e
      .ok (r.MACaddress, ⟨r.Hostname, r.IPaddress, expiry⟩)

/-- Normalize all scraped pfSense rows into the snapshot dict; the first bad
row raises out of get_dhcp_clients. -/
def pf_normalize (strptime : String → ℚ) (rs : List PfRow) :
    Except String (List (String × SnapClient)) := do
  let ps ← rs.mapM (normalize_row strptime)
  pure (build_alist ps)

/-- Character class [0123456789abcdef:] of the MAC group of the dd-wrt lease
line regex. -/
def isMacChar (c : Char) : Bool :=
  c.isDigit || c = 'a' || c = 'b' || c = 'c' || c = 'd' || c = 'e' || c = 'f' || c = ':'

/-- Character class of the IP group of the dd-wrt lease line regex. -/
def isIpChar (c : Char) : Bool := c.isDigit || c = '.'

/-- Character class of the final hostname group of the regex: any
non-whitespace character. -/
def isNonSpace (c : Char) : Bool := !c.isWhitespace

/-- Greedy one-or-more repetition of a character class; none when the class
does not match at least once.  Greedy matching without backtracking is exact
here because in the source regex no class contains the space that follows
it. -/
def takeWhile1 (p : Char → Bool) (cs : List Char) : Option (List Char × List Char) :=
  let t := cs.takeWhile p
  if t.isEmpty then none else some (t, cs.drop t.length)

/-- Match one expected literal character. -/
def expectChar (c : Char) : List Char → Option (List Char)
| [] => none
| c1 :: t => if c1 = c then some t else none

/-- Value of int() on the digit group. -/
def digitsToNat (cs : List Char) : Nat :=
  cs.foldl (fun n c => 10 * n + (c.toNat - 48)) 0

/-- Parse one dd-wrt lease line with the anchored pattern
digits space mac space ip space nonspace, yielding the dict assignment
clients_list[mac] = (hostname, IP, expiry); trailing text after the hostname
group is ignored, and a non-matching line is skipped. -/
def parse_lease_line (line : String) : Option (String × SnapClient) := do
  let (g1, r1) ← takeWhile1 Char.isDigit line.data
  let r1 ← expectChar ' ' r1
  let (g2, r2) ← takeWhile1 isMacChar r1
  let r2 ← expectChar ' ' r2
  let (g3, r3) ← takeWhile1 isIpChar r2
  let r3 ← expectChar ' ' r3
  let (g4, _) ← takeWhile1 isNonSpace r3
  pure (String.mk g2,
        ⟨some (String.mk g4), some (String.mk g3), (digitsToNat g1 : ℚ)⟩)

/-- Build the dd-wrt snapshot dict from the fetched lines in order. -/
def ddwrt_parse (lines : List String) : List (String × SnapClient) :=
  build_alist (lines.filterMap parse_lease_line)

/-- get_dhcp_clients over both backends.  A pfSense connection failure hits
the bare except in scrape_pfsense_dhcp which calls sys.exit(1); a missing
csrf token raises an AttributeError; a dd-wrt ssh failure is caught and
logged inside get_dhcp_clients, leaving clients equal to the empty string, so
the function returns an empty snapshot. -/
def get_dhcp_clients (strptime : String → ℚ) :
    SourceKind → PyResult (List (String × SnapClient))
| .pfsense .connectFail => .sysExit 1
| .pfsense .csrfFail => .exc "AttributeError: NoneType object has no attribute group"
| .pfsense (.rows rs) =>
    match pf_normalize strptime rs with
    | .ok snap => .ok snap
    | .error m => .exc m
| .ddwrt .sshFail => .ok []
| .ddwrt (.output lines) => .ok (ddwrt_parse lines)

/-- Status of one do_update call: ran to completion and committed, caught an
Exception in its blanket handler and logged a warning, or was terminated by
an uncaught SystemExit. -/
inductive UpdStatus where
| completed
| caughtExc (msg : String)
| exited (code : Nat)
deriving DecidableEq

/-- Result of one do_update call. -/
structure UpdResult where
  db : List DbRow
  events : List Event
  status : UpdStatus
deriving DecidableEq

/-- do_update: fetch the snapshot and reconcile.  Everything runs inside
try/except Exception, so a raised Exception only logs a warning and leaves
the table as it was (the exception fires before any write); SystemExit passes
through. -/
def do_update (strptime : String → ℚ) (lookup : String → String) (now : ℚ)
    (src : SourceKind) (rows : List DbRow) : UpdResult :=
  match get_dhcp_clients strptime src with
  | .sysExit c => ⟨rows, [], .exited c⟩
  | .exc m => ⟨rows, [], .caughtExc m⟩
  | .ok snap =>
      let res := do_update_snapshot lookup now snap rows
      ⟨res.1, res.2, .completed⟩

/-- Column list of the CREATE TABLE statement in db_connect, verbatim. -/
def db_fields : String :=
  "MAC VARCHAR(17), hostname VARCHAR(25), notes VARCHAR(255), first_seen INT, expiry INT, IP VARCHAR(15), MACOUI VARCHAR(255)"

/-- Test whether the second character list starts with the first. -/
def startsWithCL : List Char → List Char → Bool
| [], _ => true
| _ :: _, [] => false
| a :: as, b :: bs => a = b && startsWithCL as bs

/-- Test whether the first character list occurs anywhere inside the
second. -/
def occursInCL (pat : List Char) : List Char → Bool
| [] => startsWithCL pat []
| b :: bs => startsWithCL pat (b :: bs) || occursInCL pat bs

/-- Expiry rendering shared by the two listing paths: 0 prints as
static lease, anything else as the local wall-clock time of the timestamp
(datetime.fromtimestamp, passed in as a parameter). -/
def render_expiry (fromtimestamp : ℚ → String) (e : ℚ) : String :=
  if e = 0 then "static lease" else fromtimestamp e

/-- lookup_MAC against api.macvendors.com: the sentinel is returned for any
non-200 status, but a requests network error is raised, not caught. -/
inductive HttpResult where
| netError (msg : String)
| response (status : Nat) (body : String)
deriving DecidableEq

/-- lookup_MAC modelled on the HTTP outcome: network errors propagate as an
exception; otherwise the result is the body on status 200 and the sentinel
otherwise. -/
def lookup_MAC : HttpResult → Except String String
| .netError m => .error m
| .response status body => .ok (if status = 200 then body else "--none--")

/-- What one pass of the service loop does after do_update returns: continue
sleeping toward the next cycle, or die because SystemExit escaped. -/
inductive CycleOutcome where
| next
| exitProcess (code : Nat)
deriving DecidableEq

/-- One reconciliation cycle of service(): do_update is called bare; a caught
Exception was already swallowed inside do_update, but SystemExit terminates
the process. -/
def service_cycle (strptime : String → ℚ) (lookup : String → String) (now : ℚ)
    (src : SourceKind) (rows : List DbRow) : CycleOutcome × List DbRow :=
  match do_update strptime lookup now src rows with
  | ⟨rows2, _, .exited c⟩ => (.exitProcess c, rows2)
  | ⟨rows2, _, _⟩ => (.next, rows2)

/-! Association-list (Python dict) lemmas. -/

theorem alookup_upsert {α : Type} (l : List (String × α)) (k m : String) (v : α) :
    alookup (upsert l k v) m = if k = m then some v else alookup l m := by
  induction l with
  | nil => simp [upsert, alookup]
  | cons p t ih =>
    obtain ⟨k1, v1⟩ := p
    by_cases h1 : k1 = k
    · subst h1
      by_cases h2 : k1 = m <;> simp [upsert, alookup, h2]
    · by_cases h2 : k1 = m
      · subst h2
        have h3 : ¬ k = k1 := fun h => h1 h.symm
        simp [upsert, alookup, h1, h3]
      · simp [upsert, alookup, h1, h2, ih]

theorem build_alist_append {α : Type} (ps : List (String × α)) (p : String × α) :
    build_alist (ps ++ [p]) = upsert (build_alist ps) p.1 p.2 := by
  simp [build_alist, List.foldl_append]

theorem build_alist_lookup {α : Type} (ps : List (String × α)) (m : String) :
    alookup (build_alist ps) m =
      Option.map Prod.snd (ps.reverse.find? (fun p => decide (p.1 = m))) := by
  induction ps using List.reverseRecOn with
  | nil => simp [build_alist, alookup]
  | append_singleton ps p ih =>
    rw [build_alist_append, alookup_upsert]
    by_cases h : p.1 = m
    · simp [List.reverse_append, List.find?, h]
    · simp [List.reverse_append, List.find?, h, ih]

theorem mem_keys_upsert {α : Type} (l : List (String × α)) (k a : String) (v : α) :
    a ∈ (upsert l k v).map Prod.fst ↔ a ∈ l.map Prod.fst ∨ a = k := by
  induction l with
  | nil => simp [upsert]
  | cons p t ih =>
    obtain ⟨k1, v1⟩ := p
    by_cases h : k1 = k
    · subst h
      simp [upsert]
      tauto
    · simp [upsert, h, ih]
      tauto

theorem nodup_keys_upsert {α : Type} (l : List (String × α)) (k : String) (v : α)
    (h : (l.map Prod.fst).Nodup) : ((upsert l k v).map Prod.fst).Nodup := by
  induction l with
  | nil => simp [upsert]
  | cons p t ih =>
    obtain ⟨k1, v1⟩ := p
    simp only [List.map_cons, List.nodup_cons] at h
    by_cases hk : k1 = k
    · subst hk
      simpa [upsert] using h
    · simp only [upsert, hk, if_false, List.map_cons, List.nodup_cons]
      refine ⟨fun hmem => ?_, ih h.2⟩
      rcases (mem_keys_upsert t k k1 v).1 hmem with h2 | h2
      · exact h.1 h2
      · exact hk h2

theorem nodup_keys_build_fold {α : Type} (ps : List (String × α)) :
    ∀ acc : List (String × α), (acc.map Prod.fst).Nodup →
      ((ps.foldl (fun acc p => upsert acc p.1 p.2) acc).map Prod.fst).Nodup := by
  induction ps with
  | nil => intro acc h; simpa using h
  | cons p t ih => intro acc h; exact ih _ (nodup_keys_upsert _ _ _ h)

theorem nodup_keys_build_alist {α : Type} (ps : List (String × α)) :
    ((build_alist ps).map Prod.fst).Nodup :=
  nodup_keys_build_fold ps [] (by simp)

theorem mem_keys_build_fold {α : Type} (ps : List (String × α)) :
    ∀ (acc : List (String × α)) (a : String),
      a ∈ (ps.foldl (fun acc p => upsert acc p.1 p.2) acc).map Prod.fst →
      a ∈ acc.map Prod.fst ∨ a ∈ ps.map Prod.fst := by
  induction ps with
  | nil => intro acc a h; exact Or.inl (by simpa using h)
  | cons p t ih =>
    intro acc a h
    rcases ih _ a h with h1 | h1
    · rcases (mem_keys_upsert acc p.1 a p.2).1 h1 with h2 | h2
      · exact Or.inl h2
      · exact Or.inr (by simp [h2])
    · exact Or.inr (by simp [h1])

theorem mem_keys_build_alist {α : Type} (ps : List (String × α)) (a : String)
    (h : a ∈ (build_alist ps).map Prod.fst) : a ∈ ps.map Prod.fst := by
  rcases mem_keys_build_fold ps [] a h with h1 | h1
  · simp at h1
  · exact h1

/-! Database-view lemmas: the row visible through get_database_clients. -/

theorem findP_map {β γ : Type} (f : β → γ) (l : List β) (p : γ → Bool) (q : β → Bool)
    (hpq : ∀ b, p (f b) = q b) : (l.map f).find? p = (l.find? q).map f := by
  induction l with
  | nil => simp
  | cons b t ih =>
    cases hq : q b
    · have hp : p (f b) = false := by rw [hpq, hq]
      simp [List.find?, hp, hq, ih]
    · have hp : p (f b) = true := by rw [hpq, hq]
      simp [List.find?, hp, hq]

theorem gdc_lookup (rows : List DbRow) (m : String) :
    alookup (get_database_clients rows) m = Option.map toClient (vis rows m) := by
  unfold get_database_clients vis
  rw [build_alist_lookup]
  rw [← List.map_reverse]
  rw [findP_map (fun r => (r.MAC, toClient r)) rows.reverse
      (fun p => decide (p.1 = m)) (fun r => decide (r.MAC = m)) (fun r => rfl)]
  cases rows.reverse.find? (fun r => decide (r.MAC = m)) <;> simp

theorem vis_append_single (rows : List DbRow) (r : DbRow) (m : String) :
    vis (rows ++ [r]) m = if r.MAC = m then some r else vis rows m := by
  unfold vis
  rw [List.reverse_append]
  by_cases h : r.MAC = m <;> simp [List.find?, h]

theorem vis_update_field (rows : List DbRow) (m m2 : String) (f : DbRow → DbRow)
    (hf : ∀ r, (f r).MAC = r.MAC) :
    vis (update_field rows m f) m2 =
      (vis rows m2).map (fun r => if r.MAC = m then f r else r) := by
  unfold vis update_field
  rw [← List.map_reverse]
  exact findP_map _ _ _ _ (fun r => by by_cases h : r.MAC = m <;> simp [h, hf])

theorem vis_find_mac (rows : List DbRow) (m : String) (r0 : DbRow)
    (h : vis rows m = some r0) : r0.MAC = m := by
  have h2 : rows.reverse.find? (fun r => decide (r.MAC = m)) = some r0 := h
  have := List.find?_some h2
  simpa using this

theorem vis_update_field_self (rows : List DbRow) (m : String) (f : DbRow → DbRow)
    (hf : ∀ r, (f r).MAC = r.MAC) :
    vis (update_field rows m f) m = (vis rows m).map f := by
  rw [vis_update_field rows m m f hf]
  cases hv : vis rows m with
  | none => rfl
  | some r0 => simp [vis_find_mac rows m r0 hv]

theorem vis_update_field_ne (rows : List DbRow) (m m2 : String) (f : DbRow → DbRow)
    (hf : ∀ r, (f r).MAC = r.MAC) (h : m2 ≠ m) :
    vis (update_field rows m f) m2 = vis rows m2 := by
  rw [vis_update_field rows m m2 f hf]
  cases hv : vis rows m2 with
  | none => rfl
  | some r0 =>
    have hm : r0.MAC = m2 := vis_find_mac rows m2 r0 hv
    have : ¬ r0.MAC = m := by rw [hm]; exact h
    simp [this]

theorem filter_update_field_ne (rows : List DbRow) (m m2 : String) (f : DbRow → DbRow)
    (hf : ∀ r, (f r).MAC = r.MAC) (h : m2 ≠ m) :
    (update_field rows m f).filter (fun r => decide (r.MAC = m2)) =
      rows.filter (fun r => decide (r.MAC = m2)) := by
  induction rows with
  | nil => rfl
  | cons r t ih =>
    by_cases hr : r.MAC = m
    · have h2 : ¬ r.MAC = m2 := by rw [hr]; exact fun hh => h hh.symm
      have h3 : ¬ (f r).MAC = m2 := by rw [hf]; exact h2
      simp only [update_field, List.map_cons, hr, if_true]
      rw [List.filter_cons_of_neg (by simpa using h3),
          List.filter_cons_of_neg (by simpa using h2)]
      exact ih
    · simp only [update_field, List.map_cons, hr, if_false]
      by_cases h2 : r.MAC = m2
      · rw [List.filter_cons_of_pos (by simpa using h2),
            List.filter_cons_of_pos (by simpa using h2)]
        exact congrArg (List.cons r) ih
      · rw [List.filter_cons_of_neg (by simpa using h2),
            List.filter_cons_of_neg (by simpa using h2)]
        exact ih

theorem keys_update_field (rows : List DbRow) (m : String) (f : DbRow → DbRow)
    (hf : ∀ r, (f r).MAC = r.MAC) :
    (update_field rows m f).map DbRow.MAC = rows.map DbRow.MAC := by
  induction rows with
  | nil => rfl
  | cons r t ih =>
    simp only [update_field, List.map_cons] at ih ⊢
    rw [ih]
    by_cases hr : r.MAC = m <;> simp [hr, hf]

theorem vis_eq_none_iff (rows : List DbRow) (m : String) :
    vis rows m = none ↔ m ∉ rows.map DbRow.MAC := by
  unfold vis
  rw [List.find?_eq_none]
  constructor
  · intro h hm
    obtain ⟨r, hr, he⟩ := List.mem_map.1 hm
    exact h r (by simpa using hr) (by simpa using he)
  · intro h r hr
    simp only [decide_eq_true_eq]
    intro he
    exact h (List.mem_map.2 ⟨r, by simpa using hr, he⟩)

/-! Conditional-UPDATE lemmas, specialized to the three SET clauses. -/

theorem set_hostname_mac (v : String) (r : DbRow) : (set_hostname v r).MAC = r.MAC := rfl

theorem set_IP_mac (v : String) (r : DbRow) : (set_IP v r).MAC = r.MAC := rfl

theorem set_expiry_mac (v : ℚ) (r : DbRow) : (set_expiry v r).MAC = r.MAC := rfl

theorem vis_cond_update_self (rows : List DbRow) (m : String) (b : Bool)
    (f : DbRow → DbRow) (hf : ∀ r, (f r).MAC = r.MAC) :
    vis (cond_update rows m b f) m = (vis rows m).map (cond_apply b f) := by
  cases b
  · cases hv : vis rows m <;> simp [cond_update, cond_apply, hv]
  · show vis (update_field rows m f) m = _
    rw [vis_update_field_self rows m f hf]
    cases hv : vis rows m <;> simp [cond_apply]

theorem vis_cond_update_ne (rows : List DbRow) (m m2 : String) (b : Bool)
    (f : DbRow → DbRow) (hf : ∀ r, (f r).MAC = r.MAC) (h : m2 ≠ m) :
    vis (cond_update rows m b f) m2 = vis rows m2 := by
  cases b
  · rfl
  · exact vis_update_field_ne rows m m2 f hf h

theorem filter_cond_update_ne (rows : List DbRow) (m m2 : String) (b : Bool)
    (f : DbRow → DbRow) (hf : ∀ r, (f r).MAC = r.MAC) (h : m2 ≠ m) :
    (cond_update rows m b f).filter (fun r => decide (r.MAC = m2)) =
      rows.filter (fun r => decide (r.MAC = m2)) := by
  cases b
  · rfl
  · exact filter_update_field_ne rows m m2 f hf h

theorem keys_cond_update (rows : List DbRow) (m : String) (b : Bool)
    (f : DbRow → DbRow) (hf : ∀ r, (f r).MAC = r.MAC) :
    (cond_update rows m b f).map DbRow.MAC = rows.map DbRow.MAC := by
  cases b
  · rfl
  · exact keys_update_field rows m f hf

/-- The three sequential conditional single-field assignments, with all
comparisons taken against the row as it stood before the loop body, coincide
with the simultaneous field-scoped update applyUpd. -/
theorem chain_eq_applyUpd (sc : SnapClient) (r0 : DbRow) :
    cond_apply (decide (sc.expiry ≠ r0.expiry)) (set_expiry sc.expiry)
      (cond_apply (pyNeStr sc.IP r0.IP) (set_IP (pyStr sc.IP))
        (cond_apply (pyNeStr sc.hostname r0.hostname)
          (set_hostname (pyStr sc.hostname)) r0)) = applyUpd sc r0 := by
  cases h1 : pyNeStr sc.hostname r0.hostname <;>
    cases h2 : pyNeStr sc.IP r0.IP <;>
      by_cases h3 : sc.expiry ≠ r0.expiry <;>
        simp [cond_apply, set_hostname, set_IP, set_expiry, applyUpd, h1, h2, h3]

/-! Per-MAC step lemmas. -/

theorem process_mac_none (lookup : String → String) (now : ℚ)
    (dbmap : List (String × DbClient)) (rows : List DbRow) (m : String) (sc : SnapClient)
    (h : alookup dbmap m = none) :
    process_mac lookup now dbmap rows m sc =
      (rows ++ [newRow lookup now m sc], [Event.NewClient m (lookup m)]) := by
  simp [process_mac, h, db_add_client]

theorem process_mac_some (lookup : String → String) (now : ℚ)
    (dbmap : List (String × DbClient)) (rows : List DbRow) (m : String) (sc : SnapClient)
    (dbc : DbClient) (h : alookup dbmap m = some dbc) :
    process_mac lookup now dbmap rows m sc =
      (cond_update
        (cond_update
          (cond_update rows m (pyNeStr sc.hostname dbc.hostname)
            (set_hostname (pyStr sc.hostname)))
          m (pyNeStr sc.IP dbc.IP) (set_IP (pyStr sc.IP)))
        m (decide (sc.expiry ≠ dbc.expiry)) (set_expiry sc.expiry),
       (if pyNeStr sc.hostname dbc.hostname then [Event.FieldChanged m "hostname"] else []) ++
       (if pyNeStr sc.IP dbc.IP then [Event.FieldChanged m "IP"] else []) ++
       (if decide (sc.expiry ≠ dbc.expiry) then [Event.FieldChanged m "expiry"] else [])) := by
  simp only [process_mac, h]

theorem process_mac_vis (lookup : String → String) (now : ℚ)
    (dbmap : List (String × DbClient)) (rows : List DbRow) (m : String) (sc : SnapClient)
    (hag : alookup dbmap m = Option.map toClient (vis rows m)) :
    vis (process_mac lookup now dbmap rows m sc).1 m =
      some (stepRow lookup now m sc (vis rows m)) := by
  cases hv : vis rows m with
  | none =>
    rw [hv] at hag
    rw [process_mac_none lookup now dbmap rows m sc hag]
    rw [vis_append_single]
    simp [newRow, stepRow]
  | some r0 =>
    rw [hv] at hag
    simp only [Option.map_some'] at hag
    rw [process_mac_some lookup now dbmap rows m sc (toClient r0) hag]
    show vis _ m = some (applyUpd sc r0)
    rw [vis_cond_update_self _ _ _ _ (set_expiry_mac _),
        vis_cond_update_self _ _ _ _ (set_IP_mac _),
        vis_cond_update_self _ _ _ _ (set_hostname_mac _), hv]
    simp only [Option.map_some', Option.some.injEq]
    exact chain_eq_applyUpd sc r0

theorem process_mac_vis_ne (lookup : String → String) (now : ℚ)
    (dbmap : List (String × DbClient)) (rows : List DbRow) (m : String) (sc : SnapClient)
    (m2 : String) (h : m2 ≠ m) :
    vis (process_mac lookup now dbmap rows m sc).1 m2 = vis rows m2 := by
  cases halk : alookup dbmap m with
  | none =>
    rw [process_mac_none lookup now dbmap rows m sc halk]
    rw [vis_append_single]
    have hne : ¬ (newRow lookup now m sc).MAC = m2 := by
      show ¬ m = m2
      exact fun hh => h hh.symm
    simp [hne]
  | some dbc =>
    rw [process_mac_some lookup now dbmap rows m sc dbc halk]
    show vis _ m2 = vis rows m2
    rw [vis_cond_update_ne _ _ _ _ _ (set_expiry_mac _) h,
        vis_cond_update_ne _ _ _ _ _ (set_IP_mac _) h,
        vis_cond_update_ne _ _ _ _ _ (set_hostname_mac _) h]

theorem process_mac_filter_ne (lookup : String → String) (now : ℚ)
    (dbmap : List (String × DbClient)) (rows : List DbRow) (m : String) (sc : SnapClient)
    (m2 : String) (h : m2 ≠ m) :
    (process_mac lookup now dbmap rows m sc).1.filter (fun r => decide (r.MAC = m2)) =
      rows.filter (fun r => decide (r.MAC = m2)) := by
  cases halk : alookup dbmap m with
  | none =>
    rw [process_mac_none lookup now dbmap rows m sc halk]
    have hne : ¬ (newRow lookup now m sc).MAC = m2 := by
      show ¬ m = m2
      exact fun hh => h hh.symm
    simp [List.filter_append, hne]
  | some dbc =>
    rw [process_mac_some lookup now dbmap rows m sc dbc halk]
    show List.filter _ _ = _
    rw [filter_cond_update_ne _ _ _ _ _ (set_expiry_mac _) h,
        filter_cond_update_ne _ _ _ _ _ (set_IP_mac _) h,
        filter_cond_update_ne _ _ _ _ _ (set_hostname_mac _) h]

theorem process_mac_events (lookup : String → String) (now : ℚ)
    (dbmap : List (String × DbClient)) (rows : List DbRow) (m : String) (sc : SnapClient) :
    ∀ e ∈ (process_mac lookup now dbmap rows m sc).2, eventMAC e = m := by
  cases halk : alookup dbmap m with
  | none =>
    rw [process_mac_none lookup now dbmap rows m sc halk]
    intro e he
    simp at he
    subst he
    rfl
  | some dbc =>
    rw [process_mac_some lookup now dbmap rows m sc dbc halk]
    intro e he
    simp only [List.mem_append] at he
    rcases he with (he | he) | he <;> (split at he <;> simp_all [eventMAC])

theorem process_mac_keys_some (lookup : String → String) (now : ℚ)
    (dbmap : List (String × DbClient)) (rows : List DbRow) (m : String) (sc : SnapClient)
    (dbc : DbClient) (h : alookup dbmap m = some dbc) :
    (process_mac lookup now dbmap rows m sc).1.map DbRow.MAC = rows.map DbRow.MAC := by
  rw [process_mac_some lookup now dbmap rows m sc dbc h]
  show List.map _ _ = _
  rw [keys_cond_update _ _ _ _ (set_expiry_mac _),
      keys_cond_update _ _ _ _ (set_IP_mac _),
      keys_cond_update _ _ _ _ (set_hostname_mac _)]

/-! Loop lemmas for run_macs. -/

theorem run_macs_vis_ne (lookup : String → String) (now : ℚ)
    (dbmap : List (String × DbClient)) :
    ∀ (snap : List (String × SnapClient)) (rows : List DbRow) (m : String),
      m ∉ snap.map Prod.fst →
      vis (run_macs lookup now dbmap snap rows).1 m = vis rows m := by
  intro snap
  induction snap with
  | nil => intro rows m _; rfl
  | cons q rest ih =>
    obtain ⟨qm, qsc⟩ := q
    intro rows m h
    simp only [List.map_cons, List.mem_cons, not_or] at h
    simp only [run_macs]
    rw [ih _ m h.2]
    exact process_mac_vis_ne lookup now dbmap rows qm qsc m h.1

theorem run_macs_filter_ne (lookup : String → String) (now : ℚ)
    (dbmap : List (String × DbClient)) :
    ∀ (snap : List (String × SnapClient)) (rows : List DbRow) (m : String),
      m ∉ snap.map Prod.fst →
      (run_macs lookup now dbmap snap rows).1.filter (fun r => decide (r.MAC = m)) =
        rows.filter (fun r => decide (r.MAC = m)) := by
  intro snap
  induction snap with
  | nil => intro rows m _; rfl
  | cons q rest ih =>
    obtain ⟨qm, qsc⟩ := q
    intro rows m h
    simp only [List.map_cons, List.mem_cons, not_or] at h
    simp only [run_macs]
    rw [ih _ m h.2]
    exact process_mac_filter_ne lookup now dbmap rows qm qsc m h.1

theorem run_macs_events (lookup : String → String) (now : ℚ)
    (dbmap : List (String × DbClient)) :
    ∀ (snap : List (String × SnapClient)) (rows : List DbRow),
      ∀ e ∈ (run_macs lookup now dbmap snap rows).2, eventMAC e ∈ snap.map Prod.fst := by
  intro snap
  induction snap with
  | nil => intro rows e he; simp [run_macs] at he
  | cons q rest ih =>
    obtain ⟨qm, qsc⟩ := q
    intro rows e he
    simp only [run_macs, List.mem_append] at he
    rcases he with he | he
    · simp [process_mac_events lookup now dbmap rows qm qsc e he]
    · simp only [List.map_cons, List.mem_cons]
      exact Or.inr (ih _ e he)

theorem run_macs_vis (lookup : String → String) (now : ℚ)
    (dbmap : List (String × DbClient)) :
    ∀ (snap : List (String × SnapClient)) (rows : List DbRow),
      (snap.map Prod.fst).Nodup →
      (∀ p ∈ snap, alookup dbmap p.1 = Option.map toClient (vis rows p.1)) →
      ∀ p ∈ snap,
        vis (run_macs lookup now dbmap snap rows).1 p.1 =
          some (stepRow lookup now p.1 p.2 (vis rows p.1)) := by
  intro snap
  induction snap with
  | nil => intro rows _ _ p hp; simp at hp
  | cons q rest ih =>
    obtain ⟨qm, qsc⟩ := q
    intro rows hnd hag p hp
    simp only [List.map_cons, List.nodup_cons] at hnd
    rcases List.mem_cons.1 hp with hq | hrest
    · subst hq
      simp only [run_macs]
      rw [run_macs_vis_ne lookup now dbmap rest _ qm hnd.1]
      exact process_mac_vis lookup now dbmap rows qm qsc (hag _ (List.mem_cons_self _ _))
    · have hpne : p.1 ≠ qm := by
        intro hh
        exact hnd.1 (hh ▸ (List.mem_map.2 ⟨p, hrest, rfl⟩))
      have hframe : vis (process_mac lookup now dbmap rows qm qsc).1 p.1 = vis rows p.1 :=
        process_mac_vis_ne lookup now dbmap rows qm qsc p.1 hpne
      simp only [run_macs]
      have hag2 : ∀ p2 ∈ rest,
          alookup dbmap p2.1 =
            Option.map toClient (vis (process_mac lookup now dbmap rows qm qsc).1 p2.1) := by
        intro p2 hp2
        have hpne2 : p2.1 ≠ qm := by
          intro hh
          exact hnd.1 (hh ▸ (List.mem_map.2 ⟨p2, hp2, rfl⟩))
        rw [process_mac_vis_ne lookup now dbmap rows qm qsc p2.1 hpne2]
        exact hag p2 (List.mem_cons_of_mem _ hp2)
      have := ih _ hnd.2 hag2 p hrest
      rw [this, hframe]

theorem run_macs_noop (lookup : String → String) (now : ℚ)
    (dbmap : List (String × DbClient)) :
    ∀ (snap : List (String × SnapClient)) (rows : List DbRow),
      (∀ p ∈ snap, ∃ dbc, alookup dbmap p.1 = some dbc ∧
        pyNeStr p.2.hostname dbc.hostname = false ∧
        pyNeStr p.2.IP dbc.IP = false ∧ p.2.expiry = dbc.expiry) →
      run_macs lookup now dbmap snap rows = (rows, []) := by
  intro snap
  induction snap with
  | nil => intro rows _; rfl
  | cons q rest ih =>
    obtain ⟨qm, qsc⟩ := q
    intro rows h
    obtain ⟨dbc, hdbc, h1, h2, h3⟩ := h _ (List.mem_cons_self _ _)
    have hdbc2 : alookup dbmap qm = some dbc := hdbc
    have h12 : pyNeStr qsc.hostname dbc.hostname = false := h1
    have h22 : pyNeStr qsc.IP dbc.IP = false := h2
    have h32 : qsc.expiry = dbc.expiry := h3
    have hstep : process_mac lookup now dbmap rows qm qsc = (rows, []) := by
      rw [process_mac_some lookup now dbmap rows qm qsc dbc hdbc2, h12, h22]
      simp [cond_update, h32]
    simp only [run_macs, hstep]
    rw [ih rows (fun p hp => h p (List.mem_cons_of_mem _ hp))]
    rfl

theorem run_macs_keys_nodup (lookup : String → String) (now : ℚ)
    (dbmap : List (String × DbClient)) :
    ∀ (snap : List (String × SnapClient)) (rows : List DbRow),
      (rows.map DbRow.MAC).Nodup →
      (snap.map Prod.fst).Nodup →
      (∀ p ∈ snap, alookup dbmap p.1 = none → p.1 ∉ rows.map DbRow.MAC) →
      ((run_macs lookup now dbmap snap rows).1.map DbRow.MAC).Nodup := by
  intro snap
  induction snap with
  | nil => intro rows h _ _; simpa [run_macs] using h
  | cons q rest ih =>
    obtain ⟨qm, qsc⟩ := q
    intro rows hrows hnd habs
    simp only [List.map_cons, List.nodup_cons] at hnd
    simp only [run_macs]
    cases halk : alookup dbmap qm with
    | none =>
      have hnotin : qm ∉ rows.map DbRow.MAC := habs _ (List.mem_cons_self _ _) halk
      have hkeys : (process_mac lookup now dbmap rows qm qsc).1.map DbRow.MAC =
          rows.map DbRow.MAC ++ [qm] := by
        rw [process_mac_none lookup now dbmap rows qm qsc halk]
        simp [newRow]
      apply ih
      · rw [hkeys]
        rw [List.nodup_append]
        refine ⟨hrows, List.nodup_singleton _, ?_⟩
        intro a ha hb
        simp only [List.mem_singleton] at hb
        subst hb
        exact hnotin ha
      · exact hnd.2
      · intro p hp hnone
        rw [hkeys]
        simp only [List.mem_append, List.mem_singleton, not_or]
        refine ⟨habs p (List.mem_cons_of_mem _ hp) hnone, ?_⟩
        intro hh
        exact hnd.1 (hh ▸ (List.mem_map.2 ⟨p, hp, rfl⟩))
    | some dbc =>
      have hkeys : (process_mac lookup now dbmap rows qm qsc).1.map DbRow.MAC =
          rows.map DbRow.MAC :=
        process_mac_keys_some lookup now dbmap rows qm qsc dbc halk
      apply ih
      · rw [hkeys]; exact hrows
      · exact hnd.2
      · intro p hp hnone
        rw [hkeys]
        exact habs p (List.mem_cons_of_mem _ hp) hnone

/-! Lease-line parser lemmas. -/

theorem takeWhile1_all (p : Char → Bool) (cs t r : List Char)
    (h : takeWhile1 p cs = some (t, r)) : ∀ c ∈ t, p c = true := by
  unfold takeWhile1 at h
  by_cases he : (cs.takeWhile p).isEmpty <;> simp [he] at h
  intro c hc
  rw [← h.1] at hc
  exact List.mem_takeWhile_imp hc

theorem parse_lease_line_key (line : String) (m : String) (c : SnapClient)
    (h : parse_lease_line line = some (m, c)) : m.data.all isMacChar = true := by
  unfold parse_lease_line at h
  cases h1 : takeWhile1 Char.isDigit line.data with
  | none => rw [h1] at h; simp at h
  | some x1 =>
  obtain ⟨g1, r1⟩ := x1
  rw [h1] at h
  simp only [Option.bind_eq_bind, Option.some_bind] at h
  cases h2 : expectChar ' ' r1 with
  | none => rw [h2] at h; simp at h
  | some r1b =>
  rw [h2] at h
  simp only [Option.some_bind] at h
  cases h3 : takeWhile1 isMacChar r1b with
  | none => rw [h3] at h; simp at h
  | some x2 =>
  obtain ⟨g2, r2⟩ := x2
  rw [h3] at h
  simp only [Option.some_bind] at h
  cases h4 : expectChar ' ' r2 with
  | none => rw [h4] at h; simp at h
  | some r2b =>
  rw [h4] at h
  simp only [Option.some_bind] at h
  cases h5 : takeWhile1 isIpChar r2b with
  | none => rw [h5] at h; simp at h
  | some x3 =>
  obtain ⟨g3, r3⟩ := x3
  rw [h5] at h
  simp only [Option.some_bind] at h
  cases h6 : expectChar ' ' r3 with
  | none => rw [h6] at h; simp at h
  | some r3b =>
  rw [h6] at h
  simp only [Option.some_bind] at h
  cases h7 : takeWhile1 isNonSpace r3b with
  | none => rw [h7] at h; simp at h
  | some x4 =>
  obtain ⟨g4, r4⟩ := x4
  rw [h7] at h
  simp only [Option.some_bind, Option.pure_def, Option.some.injEq, Prod.mk.injEq] at h
  obtain ⟨hm, _⟩ := h
  subst hm
  show g2.all isMacChar = true
  rw [List.all_eq_true]
  intro ch hc
  exact takeWhile1_all isMacChar r1b g2 r2 h3 ch hc

/-! Stability lemmas for a second reconciliation pass. -/

theorem pyNeStr_stable (h0 old : String) :
    pyNeStr (some h0) (if pyNeStr (some h0) old then h0 else old) = false := by
  by_cases hc : h0 = old <;> simp [pyNeStr, hc]

theorem expiry_stable (e old : ℚ) : e = (if e ≠ old then e else old) := by
  by_cases hc : e = old <;> simp [hc]

theorem gdc_agrees (rows : List DbRow) :
    ∀ p : String × SnapClient,
      alookup (get_database_clients rows) p.1 = Option.map toClient (vis rows p.1) :=
  fun p => gdc_lookup rows p.1

theorem stepRow_stable (lookup : String → String) (now : ℚ) (m : String)
    (sc : SnapClient) (ov : Option DbRow)
    (hh : sc.hostname ≠ none) (hip : sc.IP ≠ none) :
    pyNeStr sc.hostname (toClient (stepRow lookup now m sc ov)).hostname = false ∧
    pyNeStr sc.IP (toClient (stepRow lookup now m sc ov)).IP = false ∧
    sc.expiry = (toClient (stepRow lookup now m sc ov)).expiry := by
  obtain ⟨h0, hh0⟩ := Option.ne_none_iff_exists'.mp hh
  obtain ⟨i0, hi0⟩ := Option.ne_none_iff_exists'.mp hip
  cases ov with
  | none =>
    refine ⟨?_, ?_, rfl⟩ <;>
      simp [stepRow, newRow, toClient, hh0, hi0, pyStr, pyNeStr]
  | some r0 =>
    refine ⟨?_, ?_, ?_⟩
    · show pyNeStr sc.hostname (applyUpd sc r0).hostname = false
      rw [hh0]
      show pyNeStr (some h0)
        (if pyNeStr sc.hostname r0.hostname then pyStr sc.hostname else r0.hostname) = false
      rw [hh0]
      exact pyNeStr_stable h0 r0.hostname
    · show pyNeStr sc.IP (applyUpd sc r0).IP = false
      rw [hi0]
      show pyNeStr (some i0)
        (if pyNeStr sc.IP r0.IP then pyStr sc.IP else r0.IP) = false
      rw [hi0]
      exact pyNeStr_stable i0 r0.IP
    · show sc.expiry = (applyUpd sc r0).expiry
      exact expiry_stable sc.expiry r0.expiry

/-! Claim theorems. -/

/-- Claim C1 (amended): from an empty inventory and a source snapshot with
exactly one MAC, do_update emits exactly one NewClient event and afterwards
the store contains exactly one entry for that MAC, with first_seen set to the
insertion time; its notes field is the dash placeholder written by
db_add_client, not the empty string. -/
theorem C1_new_client_dash_notes (lookup : String → String) (now : ℚ)
    (m : String) (sc : SnapClient) :
    do_update_snapshot lookup now [(m, sc)] [] =
      ([newRow lookup now m sc], [Event.NewClient m (lookup m)]) ∧
    (newRow lookup now m sc).first_seen = now ∧
    (newRow lookup now m sc).notes = "-" :=
  ⟨rfl, rfl, rfl⟩

/-- Claim C1 counterexample: on a concrete one-MAC snapshot from an empty
store, exactly one NewClient event is emitted, but the stored notes field of
the sole resulting entry is the dash placeholder, which is not the empty
string claimed by the spec. -/
theorem C1_notes_not_empty_cex :
    (do_update_snapshot (fun _ => "TestVendor") 7
        [("aa:bb:cc:00:01:02", ⟨some "myhost", some "10.0.0.5", 0⟩)] []).2 =
      [Event.NewClient "aa:bb:cc:00:01:02" "TestVendor"] ∧
    (do_update_snapshot (fun _ => "TestVendor") 7
        [("aa:bb:cc:00:01:02", ⟨some "myhost", some "10.0.0.5", 0⟩)] []).1.map DbRow.notes =
      ["-"] ∧
    ("-" : String) ≠ "" :=
  ⟨rfl, rfl, by decide⟩

/-- Claim C2 (amended): reconciliation is idempotent for snapshots whose
hostname and IP cells are all present (in particular for every dd-wrt
snapshot, and the pfSense fractional-timestamp expiry round trip through the
INT column preserves the compared numeric value): running do_update a second
time against the unchanged snapshot changes nothing and emits no event.  A
pfSense row whose hostname (or IP) cell is Python None breaks this, see the
counterexample. -/
theorem C2_idempotent_when_cells_present (lookup : String → String) (now1 now2 : ℚ)
    (snap : List (String × SnapClient)) (rows : List DbRow)
    (hnd : (snap.map Prod.fst).Nodup)
    (hcells : ∀ p ∈ snap, p.2.hostname ≠ none ∧ p.2.IP ≠ none) :
    do_update_snapshot lookup now2 snap (do_update_snapshot lookup now1 snap rows).1 =
      ((do_update_snapshot lookup now1 snap rows).1, []) := by
  have hvis1 : ∀ p ∈ snap,
      vis (do_update_snapshot lookup now1 snap rows).1 p.1 =
        some (stepRow lookup now1 p.1 p.2 (vis rows p.1)) :=
    run_macs_vis lookup now1 (get_database_clients rows) snap rows hnd
      (fun q _ => gdc_agrees rows q)
  show run_macs lookup now2
      (get_database_clients (do_update_snapshot lookup now1 snap rows).1)
      snap (do_update_snapshot lookup now1 snap rows).1 =
    ((do_update_snapshot lookup now1 snap rows).1, [])
  apply run_macs_noop
  intro p hp
  refine ⟨toClient (stepRow lookup now1 p.1 p.2 (vis rows p.1)), ?_, ?_⟩
  · rw [gdc_agrees _ p, hvis1 p hp]
    rfl
  · obtain ⟨hh, hip⟩ := hcells p hp
    exact stepRow_stable lookup now1 p.1 p.2 (vis rows p.1) hh hip

/-- Claim C2 witness at a concrete snapshot with present cells. -/
theorem C2_idempotent_witness :
    ((([("aa:bb:cc:00:01:02", (⟨some "host", some "10.0.0.9", 3⟩ : SnapClient))].map
        Prod.fst).Nodup) ∧
     (∀ p ∈ [("aa:bb:cc:00:01:02", (⟨some "host", some "10.0.0.9", 3⟩ : SnapClient))],
        p.2.hostname ≠ none ∧ p.2.IP ≠ none)) ∧
    do_update_snapshot (fun _ => "v") 2
        [("aa:bb:cc:00:01:02", ⟨some "host", some "10.0.0.9", 3⟩)]
        (do_update_snapshot (fun _ => "v") 1
          [("aa:bb:cc:00:01:02", ⟨some "host", some "10.0.0.9", 3⟩)] []).1 =
      ((do_update_snapshot (fun _ => "v") 1
          [("aa:bb:cc:00:01:02", ⟨some "host", some "10.0.0.9", 3⟩)] []).1, []) :=
  ⟨⟨by decide, by decide⟩,
   C2_idempotent_when_cells_present _ 1 2 _ [] (by decide) (by decide)⟩

/-- Claim C2 counterexample: a pfSense lease row whose hostname cell has no
text is stored as the literal text None but compared against Python None, so
the second do_update against the unchanged source emits a FieldChanged update
again. -/
theorem C2_blank_hostname_cex :
    (do_update (fun _ => 0) (fun _ => "v") 2
        (.pfsense (.rows [⟨some "n/a", "aa:bb:cc:00:01:02", none, some "10.0.0.5"⟩]))
        (do_update (fun _ => 0) (fun _ => "v") 1
          (.pfsense (.rows [⟨some "n/a", "aa:bb:cc:00:01:02", none, some "10.0.0.5"⟩]))
          []).db).events =
      [Event.FieldChanged "aa:bb:cc:00:01:02" "hostname"] := by
  decide

/-- Claim C3 (amended): every modelled fetch-failure path leaves the store
exactly as it was and emits no event; the pfSense connection failure aborts
the whole process via SystemExit, the pfSense parse failure aborts the cycle
as a caught, logged exception, but a dd-wrt fetch failure is not an abort at
all: it is treated as an empty snapshot and the cycle completes. -/
theorem C3_failure_paths_preserve_store (strptime : String → ℚ)
    (lookup : String → String) (now : ℚ) (rows : List DbRow) :
    do_update strptime lookup now (.pfsense .connectFail) rows =
      ⟨rows, [], .exited 1⟩ ∧
    do_update strptime lookup now (.pfsense .csrfFail) rows =
      ⟨rows, [], .caughtExc "AttributeError: NoneType object has no attribute group"⟩ ∧
    do_update strptime lookup now (.ddwrt .sshFail) rows =
      ⟨rows, [], .completed⟩ :=
  ⟨rfl, rfl, rfl⟩

/-- Claim C3 counterexample: a dd-wrt fetch failure yields an ok empty
snapshot, and do_update completes normally on it, so the failure is treated
as a snapshot of zero clients rather than reported as a SourceUnavailable
abort (the store is still unmodified). -/
theorem C3_ddwrt_empty_snapshot_cex :
    get_dhcp_clients (fun _ => 0) (.ddwrt .sshFail) = .ok [] ∧
    (do_update (fun _ => 0) (fun _ => "v") 5 (.ddwrt .sshFail)
        [⟨"aa:bb:cc:00:01:02", "host", "-", 1, 0, "10.0.0.5", "v"⟩]).status = .completed ∧
    (do_update (fun _ => 0) (fun _ => "v") 5 (.ddwrt .sshFail)
        [⟨"aa:bb:cc:00:01:02", "host", "-", 1, 0, "10.0.0.5", "v"⟩]).events = [] :=
  ⟨rfl, rfl, rfl⟩

/-- Claim C4: a MAC present in the store but absent from the snapshot keeps
all of its table rows byte-for-byte unchanged (no update, no deletion) and no
emitted event mentions it. -/
theorem C4_absent_mac_untouched (lookup : String → String) (now : ℚ)
    (snap : List (String × SnapClient)) (rows : List DbRow) (m : String)
    (hm : m ∉ snap.map Prod.fst) :
    (do_update_snapshot lookup now snap rows).1.filter (fun r => decide (r.MAC = m)) =
      rows.filter (fun r => decide (r.MAC = m)) ∧
    ∀ e ∈ (do_update_snapshot lookup now snap rows).2, eventMAC e ≠ m := by
  constructor
  · exact run_macs_filter_ne lookup now (get_database_clients rows) snap rows m hm
  · intro e he heq
    exact hm (heq ▸ run_macs_events lookup now (get_database_clients rows) snap rows e he)

/-- Claim C4 witness at a concrete store entry absent from the snapshot. -/
theorem C4_absent_mac_witness :
    (("zz" : String) ∉ ([("aa", (⟨some "h", some "i", (0 : ℚ)⟩ : SnapClient))].map
        Prod.fst)) ∧
    ((do_update_snapshot (fun _ => "v") 5 [("aa", ⟨some "h", some "i", 0⟩)]
        [⟨"zz", "h2", "-", 1, 2, "ip", "v"⟩]).1.filter (fun r => decide (r.MAC = "zz")) =
      [(⟨"zz", "h2", "-", 1, 2, "ip", "v"⟩ : DbRow)].filter (fun r => decide (r.MAC = "zz")) ∧
     ∀ e ∈ (do_update_snapshot (fun _ => "v") 5 [("aa", ⟨some "h", some "i", 0⟩)]
        [⟨"zz", "h2", "-", 1, 2, "ip", "v"⟩]).2, eventMAC e ≠ "zz") :=
  ⟨by decide, C4_absent_mac_untouched _ _ _ _ _ (by decide)⟩

/-- Claim C5: for an entry present in both snapshot and store, the visible
row after do_update is exactly the old row with hostname, IP and expiry each
replaced precisely when the Python comparison with the snapshot value came
out unequal; first_seen, notes, MACOUI and MAC are never modified by
reconciliation (first_seen is written only by db_add_client at insert time,
notes only by the explicit add-note command). -/
theorem C5_update_scope (lookup : String → String) (now : ℚ)
    (snap : List (String × SnapClient)) (rows : List DbRow)
    (m : String) (sc : SnapClient) (r0 : DbRow)
    (hnd : (snap.map Prod.fst).Nodup) (hm : (m, sc) ∈ snap)
    (hvis : vis rows m = some r0) :
    vis (do_update_snapshot lookup now snap rows).1 m = some (applyUpd sc r0) ∧
    (applyUpd sc r0).first_seen = r0.first_seen ∧
    (applyUpd sc r0).notes = r0.notes ∧
    (applyUpd sc r0).MACOUI = r0.MACOUI ∧
    (applyUpd sc r0).MAC = r0.MAC ∧
    (applyUpd sc r0).hostname =
      (if pyNeStr sc.hostname r0.hostname then pyStr sc.hostname else r0.hostname) ∧
    (applyUpd sc r0).IP = (if pyNeStr sc.IP r0.IP then pyStr sc.IP else r0.IP) ∧
    (applyUpd sc r0).expiry =
      (if sc.expiry ≠ r0.expiry then sc.expiry else r0.expiry) := by
  refine ⟨?_, rfl, rfl, rfl, rfl, rfl, rfl, rfl⟩
  have h2 := run_macs_vis lookup now (get_database_clients rows) snap rows hnd
    (fun q _ => gdc_agrees rows q) (m, sc) hm
  dsimp only at h2
  rw [hvis] at h2
  exact h2

/-- Claim C5 witness at a concrete changed-hostname update. -/
theorem C5_update_scope_witness :
    ((([("m1", (⟨some "hostB", some "2.2.2.2", 5⟩ : SnapClient))].map Prod.fst).Nodup) ∧
     (("m1", (⟨some "hostB", some "2.2.2.2", 5⟩ : SnapClient)) ∈
        [("m1", (⟨some "hostB", some "2.2.2.2", 5⟩ : SnapClient))]) ∧
     vis [(⟨"m1", "hostA", "note", 1, 4, "1.1.1.1", "ven"⟩ : DbRow)] "m1" =
        some ⟨"m1", "hostA", "note", 1, 4, "1.1.1.1", "ven"⟩) ∧
    vis (do_update_snapshot (fun _ => "v") 9 [("m1", ⟨some "hostB", some "2.2.2.2", 5⟩)]
        [⟨"m1", "hostA", "note", 1, 4, "1.1.1.1", "ven"⟩]).1 "m1" =
      some (applyUpd ⟨some "hostB", some "2.2.2.2", 5⟩
        ⟨"m1", "hostA", "note", 1, 4, "1.1.1.1", "ven"⟩) :=
  ⟨⟨by decide, by decide, by decide⟩,
   (C5_update_scope _ 9 _ _ _ _ _ (by decide) (by decide) (by decide)).1⟩

/-- Claim C6: a pfSense End cell of n/a normalizes to expiry 0; inserting
that record stores expiry 0, a later reconciliation against the same
snapshot re-reads it as 0, and the listing renderer prints 0 as the text
static lease instead of a wall-clock timestamp. -/
theorem C6_static_lease_preserved (strptime : String → ℚ) (fromtimestamp : ℚ → String)
    (lookup : String → String) (now1 now2 : ℚ) (m : String) (hn ip : Option String) :
    normalize_row strptime ⟨some "n/a", m, hn, ip⟩ = .ok (m, ⟨hn, ip, 0⟩) ∧
    (vis (do_update_snapshot lookup now1 [(m, ⟨hn, ip, 0⟩)] []).1 m).map DbRow.expiry =
      some 0 ∧
    (vis (do_update_snapshot lookup now2 [(m, ⟨hn, ip, 0⟩)]
        (do_update_snapshot lookup now1 [(m, ⟨hn, ip, 0⟩)] []).1).1 m).map DbRow.expiry =
      some 0 ∧
    render_expiry fromtimestamp 0 = "static lease" := by
  have h1 := run_macs_vis lookup now1 (get_database_clients ([] : List DbRow))
    [(m, ⟨hn, ip, 0⟩)] [] (by simp) (fun q _ => gdc_agrees [] q)
    (m, ⟨hn, ip, 0⟩) (by simp)
  dsimp only at h1
  have h1b : vis (do_update_snapshot lookup now1 [(m, ⟨hn, ip, 0⟩)] []).1 m =
      some (newRow lookup now1 m ⟨hn, ip, 0⟩) := h1
  refine ⟨by simp [normalize_row], ?_, ?_, by simp [render_expiry]⟩
  · rw [h1b]
    rfl
  · have h2 := run_macs_vis lookup now2
      (get_database_clients (do_update_snapshot lookup now1 [(m, ⟨hn, ip, 0⟩)] []).1)
      [(m, ⟨hn, ip, 0⟩)] (do_update_snapshot lookup now1 [(m, ⟨hn, ip, 0⟩)] []).1
      (by simp) (fun q _ => gdc_agrees _ q) (m, ⟨hn, ip, 0⟩) (by simp)
    dsimp only at h2
    rw [h1b] at h2
    have h2b : vis (do_update_snapshot lookup now2 [(m, ⟨hn, ip, 0⟩)]
        (do_update_snapshot lookup now1 [(m, ⟨hn, ip, 0⟩)] []).1).1 m =
      some (applyUpd ⟨hn, ip, 0⟩ (newRow lookup now1 m ⟨hn, ip, 0⟩)) := h2
    rw [h2b]
    show some (applyUpd ⟨hn, ip, 0⟩ (newRow lookup now1 m ⟨hn, ip, 0⟩)).expiry = some 0
    simp [applyUpd, newRow]

/-- Claim C7 (amended): for every source outcome other than the pfSense
connection failure, the service-loop cycle continues to the next scheduled
iteration (any raised Exception was caught and logged inside do_update); the
pfSense connection failure raises SystemExit, which do_update does not catch,
and the process exits. -/
theorem C7_service_survives_exceptions (strptime : String → ℚ)
    (lookup : String → String) (now : ℚ) (rows : List DbRow) (src : SourceKind)
    (h : src ≠ SourceKind.pfsense PfScrapeResult.connectFail) :
    (service_cycle strptime lookup now src rows).1 = CycleOutcome.next := by
  cases src with
  | pfsense pr =>
    cases pr with
    | connectFail => exact absurd rfl h
    | csrfFail => rfl
    | rows rs =>
      cases hpf : pf_normalize strptime rs with
      | ok s => simp [service_cycle, do_update, get_dhcp_clients, hpf]
      | error e => simp [service_cycle, do_update, get_dhcp_clients, hpf]
  | ddwrt dr =>
    cases dr with
    | sshFail => rfl
    | output lines => rfl

/-- Claim C7 witness: a dd-wrt fetch failure does not stop the loop. -/
theorem C7_service_witness :
    (SourceKind.ddwrt DdwrtResult.sshFail ≠ SourceKind.pfsense PfScrapeResult.connectFail) ∧
    (service_cycle (fun _ => 0) (fun _ => "v") 0 (.ddwrt .sshFail) []).1 =
      CycleOutcome.next :=
  ⟨by decide, C7_service_survives_exceptions _ _ _ _ _ (by decide)⟩

/-- Claim C7 counterexample: a pfSense connection failure inside a service
cycle terminates the process with exit code 1 instead of continuing to the
next scheduled cycle. -/
theorem C7_pfsense_exit_cex :
    (service_cycle (fun _ => 0) (fun _ => "v") 0 (.pfsense .connectFail) []).1 =
      CycleOutcome.exitProcess 1 :=
  rfl

/-- Claim C8 (amended): lookup_MAC returns the sentinel for every non-200
HTTP response (and the body for a 200), but a network error raised by
requests.get propagates out of lookup_MAC uncaught. -/
theorem C8_non200_sentinel (status : Nat) (body : String) (h : status ≠ 200) :
    lookup_MAC (.response status body) = .ok "--none--" := by
  simp [lookup_MAC, h]

/-- Claim C8 witness at a 404 response. -/
theorem C8_non200_witness :
    ((404 : Nat) ≠ 200) ∧ lookup_MAC (.response 404 "Not Found") = .ok "--none--" :=
  ⟨by decide, C8_non200_sentinel 404 "Not Found" (by decide)⟩

/-- Claim C8 counterexample: a network error makes lookup_MAC raise instead
of returning the sentinel, so the enclosing reconciliation aborts through the
blanket handler of do_update. -/
theorem C8_network_error_cex :
    lookup_MAC (.netError "requests.exceptions.ConnectionError") =
      .error "requests.exceptions.ConnectionError" :=
  rfl

/-- Claim C9 (amended): the store itself enforces no uniqueness (the schema
has no PRIMARY KEY and duplicate inserts are accepted silently); it is
do_update that preserves distinctness of the MAC column, by inserting only
MACs absent from the dict it read at the start of the call. -/
theorem C9_distinct_macs_preserved (lookup : String → String) (now : ℚ)
    (snap : List (String × SnapClient)) (rows : List DbRow)
    (h1 : (rows.map DbRow.MAC).Nodup) (h2 : (snap.map Prod.fst).Nodup) :
    ((do_update_snapshot lookup now snap rows).1.map DbRow.MAC).Nodup := by
  show ((run_macs lookup now (get_database_clients rows) snap rows).1.map DbRow.MAC).Nodup
  apply run_macs_keys_nodup lookup now (get_database_clients rows) snap rows h1 h2
  intro p hp hnone
  rw [gdc_lookup rows p.1] at hnone
  have hv : vis rows p.1 = none := by
    cases hv2 : vis rows p.1 with
    | none => rfl
    | some r0 => rw [hv2] at hnone; simp at hnone
  exact (vis_eq_none_iff rows p.1).1 hv

/-- Claim C9 witness at a concrete fresh insert. -/
theorem C9_distinct_macs_witness :
    ((([] : List DbRow).map DbRow.MAC).Nodup ∧
     (([("aa", (⟨some "h", some "i", (0 : ℚ)⟩ : SnapClient))].map Prod.fst).Nodup)) ∧
    ((do_update_snapshot (fun _ => "v") 3 [("aa", ⟨some "h", some "i", 0⟩)] []).1.map
      DbRow.MAC).Nodup :=
  ⟨⟨by decide, by decide⟩, C9_distinct_macs_preserved _ _ _ _ (by decide) (by decide)⟩

/-- Claim C9 counterexample: calling db_add_client twice with the same MAC
succeeds silently and leaves two rows for that MAC, and the CREATE TABLE
column list contains no PRIMARY KEY constraint, so duplicate insertion is
neither prevented by the store nor a fatal condition. -/
theorem C9_duplicate_insert_cex :
    ((db_add_client (fun _ => "v") 1
        (db_add_client (fun _ => "v") 0 [] "aa:aa:aa:aa:aa:aa" ⟨some "h", some "1.2.3.4", 0⟩).1
        "aa:aa:aa:aa:aa:aa" ⟨some "h", some "1.2.3.4", 0⟩).1.countP
      (fun r => decide (r.MAC = "aa:aa:aa:aa:aa:aa")) = 2) ∧
    occursInCL ("PRIMARY".data) db_fields.data = false :=
  ⟨by decide, by decide⟩

/-- Claim C10 (amended): neither backend canonicalizes MACs.  For dd-wrt,
every snapshot key happens to consist only of digits, lowercase a to f and
colons, because the lease-line regex accepts nothing else and non-matching
lines are skipped (an uppercase MAC is dropped, not normalized); the pfSense
backend uses the scraped MAC address text verbatim in whatever case the page
supplies. -/
theorem C10_ddwrt_key_charset (lines : List String) (m : String)
    (h : m ∈ (ddwrt_parse lines).map Prod.fst) : m.data.all isMacChar = true := by
  have h2 : m ∈ (lines.filterMap parse_lease_line).map Prod.fst :=
    mem_keys_build_alist _ _ h
  obtain ⟨p, hp, he⟩ := List.mem_map.1 h2
  obtain ⟨line, _, hparse⟩ := List.mem_filterMap.1 hp
  obtain ⟨mm, cc⟩ := p
  subst he
  exact parse_lease_line_key line mm cc hparse

/-- Claim C10 witness at a concrete dd-wrt lease line. -/
theorem C10_ddwrt_key_witness :
    (("aa:bb" : String) ∈ (ddwrt_parse ["10 aa:bb 1.2.3.4 host"]).map Prod.fst) ∧
    "aa:bb".data.all isMacChar = true :=
  ⟨by decide, C10_ddwrt_key_charset ["10 aa:bb 1.2.3.4 host"] "aa:bb" (by decide)⟩

/-- Claim C10 counterexample: an uppercase MAC scraped from the pfSense page
is used verbatim as the record key, so the key is not in canonical lowercase
form. -/
theorem C10_pfsense_uppercase_cex :
    get_dhcp_clients (fun _ => 0)
        (.pfsense (.rows [⟨some "n/a", "AA:BB:CC:00:01:02", some "host", some "10.0.0.5"⟩])) =
      .ok [("AA:BB:CC:00:01:02", ⟨some "host", some "10.0.0.5", 0⟩)] ∧
    "AA:BB:CC:00:01:02".data.all isMacChar = false :=
  ⟨by decide, by decide⟩

end RouterMonitor
